import Mathlib

/-!
Verification development for the repository `client_mac_search`
(two scripts: `config_backup.py`, a multi-vendor configuration backup
batch, and `test.py`, a WLC client-inventory collector).

The scripts are embedded shallowly: the pure text-processing functions
become Lean functions over `String`/`List Char`; the SSH transport, the
file system and the logging subsystem are external collaborators and are
modelled by explicit environment records (`DevEnv`, `WlcEnv`) describing
what the outside world answers at each step.  Machine effects that the
claims speak about (connection attempts, failure-log appends, the final
list rewrite) are made explicit as data in the results.
-/

namespace ClientMacSearch

/-! ## Python string primitives used by both scripts -/

/-- The ASCII whitespace characters recognised by Python's `str.strip()`
and `str.split()` (space, tab, newline, carriage return, vertical tab,
form feed).  The scripts only meet ASCII device output. -/
def isPySpace (c : Char) : Bool :=
  c == ' ' || c == '\t' || c == '\n' || c == '\r' ||
    c == Char.ofNat 11 || c == Char.ofNat 12

/-- stripList removes leading and trailing whitespace characters:
the character-level core of Python's `str.strip()`. -/
def stripList (cs : List Char) : List Char :=
  ((cs.dropWhile isPySpace).reverse.dropWhile isPySpace).reverse

/-- Python `str.strip()`. -/
def pyStrip (s : String) : String :=
  String.mk (stripList s.data)

/-- Boolean substring search on character lists. -/
def infixOfB (needle : List Char) : List Char → Bool
  | [] => needle.isEmpty
  | c :: t => needle.isPrefixOf (c :: t) || infixOfB needle t

/-- Python's substring containment `needle in hay`. -/
def pyIn (needle hay : String) : Bool :=
  infixOfB needle.data hay.data

/-- Python `str.lower()` (ASCII case folding suffices for the device
output the scripts handle). -/
def pyLower (s : String) : String :=
  String.mk (s.data.map Char.toLower)

/-- Split a character list at every occurrence of a one-character
separator; the character-level behaviour of Python's `str.split(sep)`
for a single-character `sep` (an empty input yields one empty part). -/
def splitOnCharAux (sep : Char) : List Char → List Char → List (List Char)
  | [], acc => [acc.reverse]
  | c :: cs, acc =>
    if c == sep then acc.reverse :: splitOnCharAux sep cs []
    else splitOnCharAux sep cs (c :: acc)

def splitOnChar (sep : Char) (cs : List Char) : List (List Char) :=
  splitOnCharAux sep cs []

/-- Python `str.splitlines()` for `\n`-separated text: like splitting on
`'\n'`, except that a trailing final newline produces no extra empty
line and the empty string has no lines. -/
def pySplitlines (s : String) : List String :=
  let parts := (splitOnChar '\n' s.data).map String.mk
  match parts.getLast? with
  | some "" => parts.dropLast
  | _ => parts

/-- Whitespace-separated tokenisation, accumulator form: the behaviour
of Python's `str.split()` with no argument (runs of whitespace separate
tokens, no empty tokens are produced). -/
def tokenAux : List Char → List Char → List String
  | [], acc => if acc.isEmpty then [] else [String.mk acc.reverse]
  | c :: cs, acc =>
    if isPySpace c then
      if acc.isEmpty then tokenAux cs []
      else String.mk acc.reverse :: tokenAux cs []
    else tokenAux cs (c :: acc)

/-- Python `str.split()` (no separator argument). -/
def pySplitWS (s : String) : List String :=
  tokenAux s.data []

/-! ## config_backup.py: address validation

`validate_ip` calls the standard-library `ipaddress.ip_address`, an
external collaborator; its textual acceptance is modelled after
CPython's `IPv4Address`/`IPv6Address` parsers. -/

/-- Numeric value of a decimal digit run. -/
def digitsVal (cs : List Char) : Nat :=
  cs.foldl (fun n c => n * 10 + (c.toNat - 48)) 0

/-- One IPv4 octet as accepted by CPython `IPv4Address`: one to three
ASCII digits, no leading zero unless the octet is exactly "0", value at
most 255. -/
def validOctet (p : List Char) : Bool :=
  !p.isEmpty && p.length ≤ 3 && p.all Char.isDigit &&
    (p.length == 1 || p.head? != some '0') && digitsVal p ≤ 255

/-- CPython `IPv4Address` textual acceptance: exactly four octets
separated by dots. -/
def valid_ipv4Chars (cs : List Char) : Bool :=
  let parts := splitOnChar '.' cs
  parts.length == 4 && parts.all validOctet

def valid_ipv4 (s : String) : Bool :=
  valid_ipv4Chars s.data

/-- ASCII hexadecimal digit. -/
def hexDigit (c : Char) : Bool :=
  c.isDigit || ('a' ≤ c && c ≤ 'f') || ('A' ≤ c && c ≤ 'F')

/-- One IPv6 hextet: one to four hexadecimal digits. -/
def validHextet (p : List Char) : Bool :=
  !p.isEmpty && p.length ≤ 4 && p.all hexDigit

/-- CPython `IPv6Address` textual acceptance, transcribed from
`_ip_int_from_string`: split on `':'`; at least three parts; a trailing
part containing `'.'` must be a valid embedded IPv4 address and counts
as two hextets; at most one interior empty part (the `::` skip); a
leading or trailing empty part is only permitted as half of a leading
or trailing `::`; the skip must stand for at least one zero group; all
counted parts are hextets. -/
def valid_ipv6 (s : String) : Bool :=
  let parts0 := splitOnChar ':' s.data
  if parts0.length < 3 then false
  else
    let lastP := parts0.getLastD []
    let conv : Option (List (List Char)) :=
      if lastP.contains '.' then
        if valid_ipv4Chars lastP then some (parts0.dropLast ++ [['0'], ['0']])
        else none
      else some parts0
    match conv with
    | none => false
    | some parts =>
      if parts.length > 9 then false
      else
        let n := parts.length
        let skips := (List.range n).filter fun i =>
          decide (0 < i) && decide (i + 1 < n) && (parts.getD i ['x']).isEmpty
        match skips with
        | [] => n == 8 && parts.all validHextet
        | [i] =>
          let firstEmpty := (parts.getD 0 ['x']).isEmpty
          let lastEmpty := (parts.getLastD ['x']).isEmpty
          let hiOk := if firstEmpty then i == 1 else true
          let hi := if firstEmpty then i - 1 else i
          let lo0 := n - i - 1
          let loOk := if lastEmpty then lo0 == 1 else true
          let lo := if lastEmpty then lo0 - 1 else lo0
          hiOk && loOk && hi + lo ≤ 7 &&
            (parts.take hi).all validHextet &&
            ((parts.drop (n - lo)).all validHextet)
        | _ => false

/-- config_backup.py `validate_ip`: `ipaddress.ip_address` accepts the
string iff it parses as IPv4 or as IPv6. -/
def validate_ip (ip : String) : Bool :=
  valid_ipv4 ip || valid_ipv6 ip

/-! ## config_backup.py: device classification -/

/-- The classification decision inside `get_device_type`
(config_backup.py lines 69-81): the `version` and `hardware` fields of
the parsed `show version` output are lowercased and matched
field-by-field against the vendor signatures, in source order. -/
def classify_output (version hardware : String) : String :=
  let v := pyLower version
  let h := pyLower hardware
  if pyIn "nexus" h || pyIn "nx-os" v then "cisco_nxos"
  else if pyIn "wlc" h || pyIn "aireos" v then "cisco_wlc"
  else if pyIn "fibre channel" h || pyIn "mds" h then "cisco_mds"
  else if pyIn "juniper" h || pyIn "junos" v then "juniper_junos"
  else "cisco_ios"

/-- Modelled from the spec's words (section 4.2), for comparison with
`classify_output`: the same signatures and precedence applied to one
combined lowercased output text. -/
def classifyCombinedSpec (t : String) : String :=
  let c := pyLower t
  if pyIn "nexus" c || pyIn "nx-os" c then "cisco_nxos"
  else if pyIn "wlc" c || pyIn "aireos" c then "cisco_wlc"
  else if pyIn "fibre channel" c || pyIn "mds" c then "cisco_mds"
  else if pyIn "juniper" c || pyIn "junos" c then "juniper_junos"
  else "cisco_ios"

/-! ## config_backup.py: one device, one batch -/

/-- What the outside world (transport, device, file system) does when
config_backup.py touches one address. -/
structure DevEnv where
  /-- the `try` block of `get_device_type` raises no exception -/
  detectOk : Bool
  /-- the text conn.find_prompt() returns -/
  promptStr : String
  /-- parsed textfsm rows of `show version`: `some (version, hardware)`
  when the output is a nonempty list of rows, `none` when it is empty
  or unstructured -/
  vOut : Option (String × String)
  /-- the `try` block of `get_config` raises no exception -/
  retrOk : Bool
  /-- the configuration text `get_config` returns -/
  configText : String
  /-- whether save_config succeeds -/
  saveOk : Bool
  deriving DecidableEq

/-- config_backup.py `get_device_type` (lines 51-85), given the
environment of one address: first component is the returned device
type (`none` for Python `None`), second component records whether the
function appended the address to the failure log (it does so exactly
when the `try` block raises). -/
def get_device_type (e : DevEnv) : Option String × Bool :=
  if e.detectOk then
    if e.promptStr.data.contains '>' || e.promptStr.data.contains '#' then
      match e.vOut with
      | some (v, h) => (some (classify_output v h), false)
      | none => (none, false)
    else (none, false)
  else (none, true)

/-- config_backup.py `get_config` (lines 87-114): returns the retrieved
configuration, or `none` with a failure-log append when its `try` block
raises.  The device-type argument selects the command sent; the command
table is total on every type `classify_output` can return. -/
def get_config (e : DevEnv) (dt : String) : Option String × Bool :=
  if e.retrOk then (some e.configText, false) else (none, true)

/-- The observable outcome of the `main` loop body for one address:
whether the address was appended to `successful_ips`, which connection
attempts were made (one entry per `ConnectHandler` call), and which
entries were appended to the failure log. -/
structure Outcome where
  success : Bool
  connIPs : List String
  failEntries : List String
  deriving DecidableEq

/-- The body of the `for ip in ip_list` loop of config_backup.py `main`
(lines 149-166): validate, detect the device type, retrieve the
configuration, save it. -/
def processOne (e : DevEnv) (ip : String) : Outcome :=
  if validate_ip ip then
    match get_device_type e with
    | (none, logged) => ⟨false, [ip], if logged then [ip] else []⟩
    | (some dt, _) =>
      match get_config e dt with
      | (none, _) => ⟨false, [ip, ip], [ip]⟩
      | (some cfg, _) =>
        if cfg = "" then ⟨false, [ip, ip], []⟩
        else if e.saveOk then ⟨true, [ip, ip], []⟩
        else ⟨false, [ip, ip], []⟩
  else ⟨false, [], [ip]⟩

/-- config_backup.py `read_ip_list` (lines 12-21): strip every line of
the file, keep the nonempty ones; a read failure (`none`) yields the
empty list. -/
def read_ip_list (fileLines : Option (List String)) : List String :=
  match fileLines with
  | none => []
  | some ls => (ls.map pyStrip).filter fun s => decide (s ≠ "")

/-- Accumulated state of the batch: the `successful_ips` list, all
failure-log appends, all connection attempts, and the content the
address-list file is rewritten with (`none` while / when no rewrite
happens). -/
structure BatchResult where
  successful : List String
  failEntries : List String
  connIPs : List String
  rewritten : Option (List String)
  deriving DecidableEq

/-- One iteration of the `main` loop, threading the batch state. -/
def batchStep (envs : String → DevEnv) (acc : BatchResult) (ip : String) :
    BatchResult :=
  let o := processOne (envs ip) ip
  ⟨acc.successful ++ (if o.success then [ip] else []),
   acc.failEntries ++ o.failEntries,
   acc.connIPs ++ o.connIPs,
   acc.rewritten⟩

/-- config_backup.py `main` (lines 133-169): read the list; if it is
empty, log an error and return (no rewrite); otherwise process every
address in order and finally rewrite the address-list file with exactly
`successful_ips` (`update_ip_list`, lines 32-40). -/
def mainRun (envs : String → DevEnv) (fileLines : Option (List String)) :
    BatchResult :=
  let ips := read_ip_list fileLines
  if ips = [] then ⟨[], [], [], none⟩
  else
    let r := ips.foldl (batchStep envs) ⟨[], [], [], none⟩
    { r with rewritten := some r.successful }

/-- The addresses of a batch that end in `successful_ips`. -/
def succOf (envs : String → DevEnv) (ips : List String) : List String :=
  ips.filter fun ip => (processOne (envs ip) ip).success

/-- All failure-log appends of a batch, in order. -/
def failOf (envs : String → DevEnv) (ips : List String) : List String :=
  ips.flatMap fun ip => (processOne (envs ip) ip).failEntries

/-- All connection attempts of a batch, in order. -/
def connOf (envs : String → DevEnv) (ips : List String) : List String :=
  ips.flatMap fun ip => (processOne (envs ip) ip).connIPs

/-! ## test.py: pattern matchers

`re.search` scans start positions left to right.  For the two fixed
patterns of test.py the attempt at one position is deterministic (the
greedy `\d+` runs are delimited by literal separators), so a matcher at
a position plus a left-to-right scan reproduces `re.search` exactly. -/

/-- Try to match the MAC-address pattern
`[0-9a-fA-F]{2}(:[0-9a-fA-F]{2}){5}` (test.py line 51) at the head of a
character list, returning the 17 matched characters. -/
def macAt : List Char → Option String
  | a1 :: a2 :: b1 :: a3 :: a4 :: b2 :: a5 :: a6 :: b3 :: a7 :: a8 :: b4 ::
      a9 :: a10 :: b5 :: a11 :: a12 :: rest =>
    if hexDigit a1 && hexDigit a2 && b1 == ':' &&
       hexDigit a3 && hexDigit a4 && b2 == ':' &&
       hexDigit a5 && hexDigit a6 && b3 == ':' &&
       hexDigit a7 && hexDigit a8 && b4 == ':' &&
       hexDigit a9 && hexDigit a10 && b5 == ':' &&
       hexDigit a11 && hexDigit a12 then
      some (String.mk [a1, a2, b1, a3, a4, b2, a5, a6, b3, a7, a8, b4,
        a9, a10, b5, a11, a12])
    else none
  | _ => none

/-- Take a maximal nonempty run of decimal digits (`\d+`). -/
def digitsTake (cs : List Char) : Option (List Char × List Char) :=
  let d := cs.takeWhile Char.isDigit
  if d.isEmpty then none else some (d, cs.drop d.length)

/-- Require a literal dot. -/
def expectDot : List Char → Option (List Char)
  | '.' :: r => some r
  | _ => none

/-- Try to match the dotted-quad pattern `\d+\.\d+\.\d+\.\d+`
(test.py line 63) at the head of a character list. -/
def quadAt (cs : List Char) : Option String := do
  let (d1, r1) ← digitsTake cs
  let r2 ← expectDot r1
  let (d2, r3) ← digitsTake r2
  let r4 ← expectDot r3
  let (d3, r5) ← digitsTake r4
  let r6 ← expectDot r5
  let (d4, _) ← digitsTake r6
  pure (String.mk (d1 ++ '.' :: d2 ++ '.' :: d3 ++ '.' :: d4))

/-- Left-to-right scan: the first position `i ≤ j < i + fuel` at which
`f` produces a value. -/
def firstSomeAux {α : Type} (f : Nat → Option α) (i : Nat) :
    Nat → Option α
  | 0 => none
  | fuel + 1 =>
    match f i with
    | some a => some a
    | none => firstSomeAux f (i + 1) fuel

/-- Leftmost match of the MAC pattern in one line (re.search). -/
def findFirstMac (line : String) : Option String :=
  firstSomeAux (fun i => macAt (line.data.drop i)) 0 (line.data.length + 1)

/-- Leftmost match of the dotted-quad pattern in one line (re.search). -/
def findFirstQuad (line : String) : Option String :=
  firstSomeAux (fun i => quadAt (line.data.drop i)) 0 (line.data.length + 1)

/-! ## test.py: parsers -/

/-- test.py `get_ap_names` (lines 33-42), applied to the captured
output of `show ap summary`: keep the lines whose stripped form starts
with the configured name pattern (`re.match` with a metacharacter-free
pattern is literal matching anchored at the start) and take the first
whitespace token of each kept line as the AP name.  A kept line always
has a first token when the pattern is nonempty; Python's
`line.split()[0]` is modelled by `head?`. -/
def get_ap_names (output pfx : String) : List String :=
  (pySplitlines output).filterMap fun line =>
    if pfx.data.isPrefixOf (pyStrip line).data then (pySplitWS line).head?
    else none

/-- test.py `get_clients_for_ap` (lines 44-54), applied to the captured
output of `show client ap 802.11a <ap>`: every line, in order,
contributes the pair (first MAC match on the line, AP name) when it has
a MAC match. -/
def get_clients_for_ap (output apName : String) : List (String × String) :=
  (pySplitlines output).filterMap fun line =>
    (findFirstMac line).map fun m => (m, apName)

/-- The loop of test.py `get_client_details` (lines 60-67) over the
output lines: stop at the first line containing the literal marker
"IP Address"; the result is the first dotted-quad on that line, or the
sentinel "Unknown" when there is none or when no line has the marker. -/
def clientIPFromLines : List String → String
  | [] => "Unknown"
  | line :: rest =>
    if pyIn "IP Address" line then
      match findFirstQuad line with
      | some ip => ip
      | none => "Unknown"
    else clientIPFromLines rest

/-- test.py `get_client_details`, applied to the captured output of
`show client detail <mac>`. -/
def get_client_details (output : String) : String :=
  clientIPFromLines (pySplitlines output)

/-! ## test.py: the inventory run as a command trace -/

/-- What the WLC session answers: whether `ssh_connect` succeeds, and
the raw output `run_command` captures for each command text. -/
structure WlcEnv where
  connectOk : Bool
  reply : String → String

/-- The sequence of command texts test.py `main` (lines 76-118) sends
over the session, in order: nothing when the connection fails;
otherwise `disable_pagination` first, then `show ap summary`, then for
each discovered AP its client query followed by one detail query per
discovered client. -/
def wlcMainTrace (env : WlcEnv) (pfx : String) : List String :=
  if env.connectOk then
    "config paging disable" ::
    "show ap summary" ::
    (get_ap_names (env.reply "show ap summary") pfx).flatMap fun ap =>
      ("show client ap 802.11a " ++ ap) ::
        (get_clients_for_ap (env.reply ("show client ap 802.11a " ++ ap))
          ap).map fun mp => "show client detail " ++ mp.1
  else []

/-! ## Concrete environments used in witnesses and counterexamples -/

/-- A well-behaved IOS device: prompt `switch#`, parsable version
output matching no specific vendor signature, successful retrieval and
save. -/
def envGood : DevEnv :=
  ⟨true, "switch#", some ("15.2(4)M7", "C2960X universalk9"), true,
    "hostname sw1", true⟩

/-- A device that answers but never shows a shell sign: `find_prompt`
returns banner text without `>` or `#`, so `get_device_type` falls off
the end of its `with` block and returns Python `None` with no
failure-log append. -/
def envNoPrompt : DevEnv :=
  ⟨true, "User Access Verification", none, true, "", true⟩

/-! ## Helper lemmas: left-to-right scanning -/

theorem firstSomeAux_eq_some {α : Type} (f : Nat → Option α) :
    ∀ (fuel i : Nat) (a : α), firstSomeAux f i fuel = some a →
      ∃ j, i ≤ j ∧ f j = some a ∧ ∀ k, i ≤ k → k < j → f k = none := by
  intro fuel
  induction fuel with
  | zero => intro i a h; exact absurd h (by simp [firstSomeAux])
  | succ n ih =>
    intro i a h
    rcases hfi : f i with _ | b
    · have h' : firstSomeAux f (i + 1) n = some a := by
        rw [firstSomeAux, hfi] at h; exact h
      obtain ⟨j, hij, hj, hmin⟩ := ih (i + 1) a h'
      refine ⟨j, Nat.le_of_succ_le hij, hj, ?_⟩
      intro k hk1 hk2
      rcases Nat.eq_or_lt_of_le hk1 with rfl | hk1'
      · exact hfi
      · exact hmin k hk1' hk2
    · have hb : b = a := by
        have h' : some b = some a := by rw [firstSomeAux, hfi] at h; exact h
        exact Option.some.inj h'
      exact ⟨i, Nat.le_refl i, by rw [hfi, hb], fun k hk1 hk2 => absurd hk1 (by omega)⟩

/-! ## Helper lemmas: dropWhile, strip, tokens -/

theorem head?_dropWhile {α : Type} (p : α → Bool) :
    ∀ (l : List α) (c : α), (l.dropWhile p).head? = some c → p c = false := by
  intro l
  induction l with
  | nil => intro c h; simp [List.dropWhile] at h
  | cons a t ih =>
    intro c h
    by_cases hp : p a
    · rw [List.dropWhile_cons, if_pos hp] at h
      exact ih c h
    · rw [List.dropWhile_cons, if_neg hp] at h
      have : a = c := by simpa using h
      rw [← this]
      simpa using hp

theorem dropWhile_eq_self_of_head? {α : Type} (p : α → Bool) (l : List α)
    (h : ∀ c, l.head? = some c → p c = false) : l.dropWhile p = l := by
  cases l with
  | nil => rfl
  | cons a t => rw [List.dropWhile_cons, if_neg (by simp [h a rfl])]

theorem dropWhile_idem {α : Type} (p : α → Bool) (l : List α) :
    (l.dropWhile p).dropWhile p = l.dropWhile p :=
  dropWhile_eq_self_of_head? p _ (head?_dropWhile p l)

theorem stripList_idem (cs : List Char) :
    stripList (stripList cs) = stripList cs := by
  have hsplit : (cs.dropWhile isPySpace) =
      ((cs.dropWhile isPySpace).reverse.dropWhile isPySpace).reverse ++
        ((cs.dropWhile isPySpace).reverse.takeWhile isPySpace).reverse := by
    conv_lhs => rw [← List.reverse_reverse (cs.dropWhile isPySpace),
      ← List.takeWhile_append_dropWhile isPySpace (cs.dropWhile isPySpace).reverse]
    rw [List.reverse_append]
  have h2 : (stripList cs).dropWhile isPySpace = stripList cs := by
    apply dropWhile_eq_self_of_head?
    intro c hc
    cases hrB : stripList cs with
    | nil => rw [hrB] at hc; simp at hc
    | cons x xs =>
      rw [hrB] at hc
      have hcx : x = c := by simpa using hc
      have hB : ((cs.dropWhile isPySpace).reverse.dropWhile isPySpace).reverse =
          x :: xs := hrB
      have hAhead : (cs.dropWhile isPySpace).head? = some x := by
        rw [hsplit, hB]; rfl
      rw [← hcx]
      exact head?_dropWhile isPySpace cs x hAhead
  show ((((stripList cs).dropWhile isPySpace).reverse).dropWhile
      isPySpace).reverse = stripList cs
  rw [h2]
  show (((((cs.dropWhile isPySpace).reverse.dropWhile
      isPySpace).reverse).reverse).dropWhile isPySpace).reverse = stripList cs
  rw [List.reverse_reverse, dropWhile_idem]
  rfl

theorem pyStrip_idem (s : String) : pyStrip (pyStrip s) = pyStrip s := by
  show String.mk (stripList (stripList s.data)) = String.mk (stripList s.data)
  rw [stripList_idem]

theorem mem_read_ip_list {fileLines : Option (List String)} {ip : String}
    (h : ip ∈ read_ip_list fileLines) : pyStrip ip = ip ∧ ip ≠ "" := by
  cases fileLines with
  | none => simp [read_ip_list] at h
  | some ls =>
    simp only [read_ip_list] at h
    rw [List.mem_filter] at h
    obtain ⟨hmem, hne⟩ := h
    rw [List.mem_map] at hmem
    obtain ⟨x, _, rfl⟩ := hmem
    exact ⟨pyStrip_idem x, by simpa using hne⟩

theorem read_ip_list_fixed {l : List String}
    (h : ∀ ip ∈ l, pyStrip ip = ip ∧ ip ≠ "") :
    read_ip_list (some l) = l := by
  simp only [read_ip_list]
  rw [show l.map pyStrip = l.map id from
    List.map_congr_left (fun a ha => (h a ha).1), List.map_id]
  rw [List.filter_eq_self]
  intro a ha
  exact decide_eq_true (h a ha).2

/-! ## Helper lemmas: the batch loop -/

theorem foldl_batchStep (envs : String → DevEnv) :
    ∀ (ips : List String) (acc : BatchResult),
      ips.foldl (batchStep envs) acc =
        ⟨acc.successful ++ succOf envs ips, acc.failEntries ++ failOf envs ips,
         acc.connIPs ++ connOf envs ips, acc.rewritten⟩ := by
  intro ips
  induction ips with
  | nil =>
    intro acc
    simp [succOf, failOf, connOf]
  | cons ip rest ih =>
    intro acc
    rw [List.foldl_cons, ih]
    simp only [batchStep, succOf, failOf, connOf, List.filter_cons,
      List.flatMap_cons]
    by_cases hs : (processOne (envs ip) ip).success
    · simp [hs, List.append_assoc]
    · simp [hs, List.append_assoc]

theorem mainRun_eq (envs : String → DevEnv) (fileLines : Option (List String))
    (h : read_ip_list fileLines ≠ []) :
    mainRun envs fileLines =
      ⟨succOf envs (read_ip_list fileLines),
       failOf envs (read_ip_list fileLines),
       connOf envs (read_ip_list fileLines),
       some (succOf envs (read_ip_list fileLines))⟩ := by
  simp only [mainRun, if_neg h, foldl_batchStep]
  rfl

theorem processOne_invalid {e : DevEnv} {ip : String}
    (h : validate_ip ip = false) : processOne e ip = ⟨false, [], [ip]⟩ := by
  simp [processOne, h]

theorem get_device_type_of_isSome {e : DevEnv}
    (h : (get_device_type e).1.isSome = true) :
    ∃ dt, get_device_type e = (some dt, false) := by
  unfold get_device_type at h ⊢
  by_cases hd : e.detectOk
  · simp only [if_pos hd] at h ⊢
    by_cases hp : (e.promptStr.data.contains '>' || e.promptStr.data.contains '#') = true
    · simp only [if_pos hp] at h ⊢
      cases hv : e.vOut with
      | none => rw [hv] at h; simp at h
      | some pr =>
        obtain ⟨pv, ph⟩ := pr
        exact ⟨classify_output pv ph, rfl⟩
    · rw [if_neg hp] at h; simp at h
  · rw [if_neg hd] at h; simp at h

theorem processOne_valid_conn {e : DevEnv} {ip : String}
    (hv : validate_ip ip = true) :
    ∀ y ∈ (processOne e ip).connIPs, y = ip := by
  intro y hy
  by_cases hd : e.detectOk <;>
    rcases hvo : e.vOut with _ | ⟨pa, pb⟩ <;>
    by_cases hp : '>' ∈ e.promptStr.data ∨ '#' ∈ e.promptStr.data <;>
    by_cases hr : e.retrOk <;>
    by_cases hc : e.configText = "" <;>
    by_cases hsv : e.saveOk <;>
    simp [processOne, get_device_type, get_config, hv, hd, hp, hvo, hr, hc,
      hsv] at hy <;>
    first
    | exact hy
    | (rcases hy with h | h <;> exact h)

theorem connOf_valid {envs : String → DevEnv} {ips : List String} {y : String}
    (h : y ∈ connOf envs ips) : validate_ip y = true := by
  rw [connOf, List.mem_flatMap] at h
  obtain ⟨x, _, hy⟩ := h
  by_cases hv : validate_ip x = true
  · have := processOne_valid_conn hv y hy
    rw [this]; exact hv
  · rw [processOne_invalid (by simpa using hv)] at hy
    simp at hy

/-! ## Helper lemmas: tokens and anchored matching -/

theorem takeWhile_append_allneg {α : Type} (P : α → Bool) :
    ∀ (a b : List α), (∀ x ∈ b, P x = false) →
      (a ++ b).takeWhile P = a.takeWhile P := by
  intro a
  induction a with
  | nil =>
    intro b hb
    cases b with
    | nil => rfl
    | cons y t =>
      rw [List.nil_append, List.takeWhile_cons,
        if_neg (by simp [hb y (List.mem_cons_self y t)]), List.takeWhile_nil]
  | cons x t ih =>
    intro b hb
    rw [List.cons_append, List.takeWhile_cons, List.takeWhile_cons]
    by_cases hp : P x
    · rw [if_pos hp, if_pos hp, ih b hb]
    · rw [if_neg hp, if_neg hp]

theorem isPrefixOf_takeWhile (P : Char → Bool) :
    ∀ (p l : List Char), (∀ c ∈ p, P c = true) →
      p.isPrefixOf (l.takeWhile P) = p.isPrefixOf l := by
  intro p
  induction p with
  | nil => intro l h; simp [List.isPrefixOf]
  | cons a p' ih =>
    intro l h
    cases l with
    | nil => rfl
    | cons b l' =>
      rw [List.takeWhile_cons]
      by_cases hb : P b
      · rw [if_pos hb]
        show ((a == b) && p'.isPrefixOf (l'.takeWhile P)) =
          ((a == b) && p'.isPrefixOf l')
        rw [ih l' (fun c hc => h c (List.mem_cons_of_mem a hc))]
      · rw [if_neg hb]
        have ha : P a = true := h a (List.mem_cons_self a p')
        have hab : (a == b) = false :=
          beq_eq_false_iff_ne.mpr (fun he => hb (he ▸ ha))
        show (a :: p').isPrefixOf ([] : List Char) =
          ((a == b) && p'.isPrefixOf l')
        rw [hab]
        simp [List.isPrefixOf]

theorem takeWhile_reverse_dropWhile (m : List Char) :
    ((m.reverse.dropWhile isPySpace).reverse.takeWhile fun c => !isPySpace c) =
      m.takeWhile fun c => !isPySpace c := by
  have hsplit : (m.reverse.dropWhile isPySpace).reverse ++
      (m.reverse.takeWhile isPySpace).reverse = m := by
    rw [← List.reverse_append, List.takeWhile_append_dropWhile,
      List.reverse_reverse]
  conv_rhs => rw [← hsplit]
  rw [takeWhile_append_allneg]
  intro x hx
  have hxm : x ∈ m.reverse.takeWhile isPySpace := List.mem_reverse.mp hx
  simp [List.mem_takeWhile_imp hxm]

theorem tokenAux_head_acc :
    ∀ (cs acc : List Char), acc ≠ [] →
      (tokenAux cs acc).head? =
        some (String.mk (acc.reverse ++ cs.takeWhile fun c => !isPySpace c)) := by
  intro cs
  induction cs with
  | nil =>
    intro acc hacc
    rw [show tokenAux [] acc =
      (if acc.isEmpty then [] else [String.mk acc.reverse]) from rfl]
    rw [if_neg (by simpa [List.isEmpty_iff] using hacc)]
    simp
  | cons c cs ih =>
    intro acc hacc
    by_cases hc : isPySpace c
    · rw [show tokenAux (c :: cs) acc =
        (if isPySpace c then
          (if acc.isEmpty then tokenAux cs []
           else String.mk acc.reverse :: tokenAux cs [])
         else tokenAux cs (c :: acc)) from rfl]
      rw [if_pos hc, if_neg (by simpa [List.isEmpty_iff] using hacc)]
      rw [List.takeWhile_cons, if_neg (by simp [hc])]
      simp
    · rw [show tokenAux (c :: cs) acc =
        (if isPySpace c then
          (if acc.isEmpty then tokenAux cs []
           else String.mk acc.reverse :: tokenAux cs [])
         else tokenAux cs (c :: acc)) from rfl]
      rw [if_neg hc, ih (c :: acc) (List.cons_ne_nil c acc)]
      rw [List.takeWhile_cons, if_pos (by simp [hc])]
      rw [List.reverse_cons, List.append_assoc]
      rfl

theorem tokenAux_head (cs : List Char) :
    (tokenAux cs []).head? =
      (if (cs.dropWhile isPySpace).isEmpty then none
       else some (String.mk
         ((cs.dropWhile isPySpace).takeWhile fun c => !isPySpace c))) := by
  induction cs with
  | nil => rfl
  | cons c cs ih =>
    by_cases hc : isPySpace c
    · rw [show tokenAux (c :: cs) [] =
        (if isPySpace c then
          (if (List.nil (α := Char)).isEmpty then tokenAux cs []
           else String.mk [].reverse :: tokenAux cs [])
         else tokenAux cs [c]) from rfl]
      rw [if_pos hc]
      rw [show (if (List.nil (α := Char)).isEmpty then tokenAux cs []
        else String.mk [].reverse :: tokenAux cs []) = tokenAux cs [] from rfl]
      rw [List.dropWhile_cons, if_pos hc]
      exact ih
    · rw [show tokenAux (c :: cs) [] =
        (if isPySpace c then
          (if (List.nil (α := Char)).isEmpty then tokenAux cs []
           else String.mk [].reverse :: tokenAux cs [])
         else tokenAux cs [c]) from rfl]
      rw [if_neg hc, List.dropWhile_cons, if_neg hc]
      rw [tokenAux_head_acc cs [c] (List.cons_ne_nil c [])]
      rw [if_neg (by simp)]
      rw [List.takeWhile_cons, if_pos (by simpa using hc)]
      rfl

theorem get_ap_line (p : List Char) (hp : p ≠ [])
    (hps : ∀ c ∈ p, isPySpace c = false) (line : String) :
    (if p.isPrefixOf (pyStrip line).data then (pySplitWS line).head? else none)
      = (match pySplitWS line with
         | [] => none
         | t :: _ => if p.isPrefixOf t.data then some t else none) := by
  have hhead := tokenAux_head line.data
  cases htok : pySplitWS line with
  | nil =>
    have h0 : (tokenAux line.data []).head? = none := by
      rw [show tokenAux line.data [] = pySplitWS line from rfl, htok]; rfl
    rw [h0] at hhead
    by_cases hdw : (line.data.dropWhile isPySpace).isEmpty
    · have hnil : line.data.dropWhile isPySpace = [] :=
        List.isEmpty_iff.mp hdw
      have hstrip : (pyStrip line).data = [] := by
        show stripList line.data = []
        rw [show stripList line.data =
          ((line.data.dropWhile isPySpace).reverse.dropWhile
            isPySpace).reverse from rfl, hnil]
        rfl
      rw [hstrip]
      cases p with
      | nil => exact absurd rfl hp
      | cons a p' => rw [show (a :: p').isPrefixOf ([] : List Char) = false
          from rfl, if_neg (by simp)]
    · rw [if_neg hdw] at hhead
      exact absurd hhead.symm (by simp)
  | cons t rest =>
    have h0 : (tokenAux line.data []).head? = some t := by
      rw [show tokenAux line.data [] = pySplitWS line from rfl, htok]; rfl
    rw [h0] at hhead
    by_cases hdw : (line.data.dropWhile isPySpace).isEmpty
    · rw [if_pos hdw] at hhead; exact absurd hhead (by simp)
    · rw [if_neg hdw] at hhead
      have ht : t = String.mk
          ((line.data.dropWhile isPySpace).takeWhile fun c => !isPySpace c) :=
        Option.some.inj hhead
      have hP : ∀ c ∈ p, (fun c => !isPySpace c) c = true := by
        intro c hc; simp [hps c hc]
      have hkey : p.isPrefixOf (pyStrip line).data = p.isPrefixOf t.data := by
        rw [← isPrefixOf_takeWhile _ p (pyStrip line).data hP]
        rw [show (pyStrip line).data =
          ((line.data.dropWhile isPySpace).reverse.dropWhile
            isPySpace).reverse from rfl]
        rw [takeWhile_reverse_dropWhile (line.data.dropWhile isPySpace)]
        rw [ht]
      rw [hkey]
      cases hpre : p.isPrefixOf t.data
      · simp [hpre]
      · simp [hpre]

theorem isPrefixOf_append_left :
    ∀ (p s t : List Char), p.isPrefixOf s = true → p.isPrefixOf (s ++ t) = true := by
  intro p
  induction p with
  | nil => intro s t _; cases s ++ t <;> rfl
  | cons a p' ih =>
    intro s t h
    cases s with
    | nil => exact absurd h (by simp [List.isPrefixOf])
    | cons b s' =>
      rw [List.cons_append]
      have h' : ((a == b) && p'.isPrefixOf s') = true := h
      rw [Bool.and_eq_true] at h'
      show ((a == b) && p'.isPrefixOf (s' ++ t)) = true
      rw [Bool.and_eq_true]
      exact ⟨h'.1, ih s' t h'.2⟩

theorem filterMap_first_eq (l : List String) (ap : String) :
    (l.filterMap fun line => (findFirstMac line).map fun m => (m, ap)) =
      (l.filter fun line => (findFirstMac line).isSome).map
        fun line => ((findFirstMac line).getD "", ap) := by
  induction l with
  | nil => rfl
  | cons x t ih =>
    cases hx : findFirstMac x with
    | none => simp [List.filterMap_cons, List.filter_cons, hx, ih]
    | some m => simp [List.filterMap_cons, List.filter_cons, hx, ih]

theorem processOne_shape (e : DevEnv) (ip : String) :
    processOne e ip = ⟨false, [], [ip]⟩ ∨
    processOne e ip = ⟨false, [ip], [ip]⟩ ∨
    processOne e ip = ⟨false, [ip], []⟩ ∨
    processOne e ip = ⟨false, [ip, ip], [ip]⟩ ∨
    processOne e ip = ⟨true, [ip, ip], []⟩ ∨
    processOne e ip = ⟨false, [ip, ip], []⟩ := by
  by_cases hvv : validate_ip ip = true <;>
    by_cases hd : e.detectOk <;>
    rcases hvo : e.vOut with _ | ⟨pa, pb⟩ <;>
    by_cases hp : '>' ∈ e.promptStr.data ∨ '#' ∈ e.promptStr.data <;>
    by_cases hr : e.retrOk <;>
    by_cases hc : e.configText = "" <;>
    by_cases hsv : e.saveOk <;>
    simp [processOne, get_device_type, get_config, hvv, hd, hp, hvo, hr, hc,
      hsv]

/-! ## Claim C1 -/

/-- Claim C1 (amended): each address of a batch yields at most one
outcome, never both a success and a failure-log entry; the failing
stages that raise (invalid format, an exception while detecting the
device type, an exception while retrieving the configuration) append
exactly one failure-log entry; but an address can also be dropped with
neither outcome, namely when `get_device_type` returns no type without
raising (no `>`/`#` in the prompt, or unparsable version output), when
the retrieved configuration is empty, or when saving fails. -/
theorem c1_outcomes (e : DevEnv) (ip : String) :
    ((processOne e ip).success = true → (processOne e ip).failEntries = []) ∧
    ((processOne e ip).failEntries = [] ∨
      (processOne e ip).failEntries = [ip]) ∧
    (validate_ip ip = false → processOne e ip = ⟨false, [], [ip]⟩) ∧
    (validate_ip ip = true → e.detectOk = false →
      processOne e ip = ⟨false, [ip], [ip]⟩) ∧
    (validate_ip ip = true → e.detectOk = true →
      (¬('>' ∈ e.promptStr.data ∨ '#' ∈ e.promptStr.data) ∨ e.vOut = none) →
      processOne e ip = ⟨false, [ip], []⟩) ∧
    (validate_ip ip = true → (get_device_type e).1.isSome = true →
      e.retrOk = false → processOne e ip = ⟨false, [ip, ip], [ip]⟩) ∧
    (validate_ip ip = true → (get_device_type e).1.isSome = true →
      e.retrOk = true → e.configText ≠ "" → e.saveOk = true →
      processOne e ip = ⟨true, [ip, ip], []⟩) ∧
    (validate_ip ip = true → (get_device_type e).1.isSome = true →
      e.retrOk = true → (e.configText = "" ∨ e.saveOk = false) →
      (processOne e ip).success = false ∧
        (processOne e ip).failEntries = []) := by
  refine ⟨?_, ?_, ?_, ?_, ?_, ?_, ?_, ?_⟩
  · intro hs
    rcases processOne_shape e ip with h | h | h | h | h | h <;>
      rw [h] at hs ⊢ <;> simp_all
  · rcases processOne_shape e ip with h | h | h | h | h | h <;> rw [h] <;>
      simp
  · intro hv; exact processOne_invalid hv
  · intro hv hd; simp [processOne, get_device_type, hv, hd]
  · intro hv hd hor
    rcases hor with hnp | hvo
    · simp [processOne, get_device_type, hv, hd, hnp]
    · by_cases hp : '>' ∈ e.promptStr.data ∨ '#' ∈ e.promptStr.data <;>
        simp [processOne, get_device_type, hv, hd, hp, hvo]
  · intro hv hsome hr
    obtain ⟨dt, hdt⟩ := get_device_type_of_isSome hsome
    simp [processOne, hv, hdt, get_config, hr]
  · intro hv hsome hr hc hsv
    obtain ⟨dt, hdt⟩ := get_device_type_of_isSome hsome
    simp [processOne, hv, hdt, get_config, hr, hc, hsv]
  · intro hv hsome hr hor
    obtain ⟨dt, hdt⟩ := get_device_type_of_isSome hsome
    rcases hor with hc | hsv
    · simp [processOne, hv, hdt, get_config, hr, hc]
    · by_cases hc : e.configText = "" <;>
        simp [processOne, hv, hdt, get_config, hr, hc, hsv]

/-- Witness for C1: a concrete no-prompt device is silently dropped —
no success, no failure-log entry. -/
theorem c1_witness :
    processOne envNoPrompt "10.0.0.1" = ⟨false, ["10.0.0.1"], []⟩ :=
  (c1_outcomes envNoPrompt "10.0.0.1").2.2.2.2.1 (by decide) (by decide)
    (Or.inr rfl)

/-- Counterexample for C1 as stated: in a batch over the single address
10.0.0.1, against a device that authenticates without ever showing a
`>`/`#` prompt, the address ends in neither the success set nor the
failure log — outcomes do not partition the input. -/
theorem c1_counterexample :
    "10.0.0.1" ∈ read_ip_list (some ["10.0.0.1"]) ∧
    (mainRun (fun _ => envNoPrompt) (some ["10.0.0.1"])).successful = [] ∧
    (mainRun (fun _ => envNoPrompt) (some ["10.0.0.1"])).failEntries = [] := by
  decide

/-! ## Claim C2 -/

/-- Claim C2 (amended): after a non-empty batch the address-list file
is rewritten with exactly `successful_ips` (not input minus successes),
and reading the rewritten file back yields exactly the successful
addresses — so a re-run processes exactly the addresses that already
succeeded, and failed addresses are not reprocessed unless re-appended. -/
theorem c2_rewrite (envs : String → DevEnv) (fileLines : Option (List String))
    (hne : read_ip_list fileLines ≠ []) :
    (mainRun envs fileLines).rewritten =
      some (mainRun envs fileLines).successful ∧
    read_ip_list (some (mainRun envs fileLines).successful) =
      (mainRun envs fileLines).successful := by
  rw [mainRun_eq envs fileLines hne]
  refine ⟨rfl, ?_⟩
  apply read_ip_list_fixed
  intro ip hip
  have hfil : ip ∈ (read_ip_list fileLines).filter
      (fun x => (processOne (envs x) x).success) := hip
  exact mem_read_ip_list (List.mem_of_mem_filter hfil)

/-- Witness for C2's amended statement at a concrete run. -/
theorem c2_witness :
    (mainRun (fun _ => envGood) (some ["10.0.0.1"])).rewritten =
      some (mainRun (fun _ => envGood) (some ["10.0.0.1"])).successful ∧
    read_ip_list
        (some (mainRun (fun _ => envGood) (some ["10.0.0.1"])).successful) =
      (mainRun (fun _ => envGood) (some ["10.0.0.1"])).successful :=
  c2_rewrite (fun _ => envGood) (some ["10.0.0.1"]) (by decide)

/-- Counterexample for C2 as stated: 10.0.0.1 succeeds, the rewritten
list contains it, and re-running the batch on the rewritten list
attempts a connection to it again — the succeeded address is
reprocessed. -/
theorem c2_counterexample :
    "10.0.0.1" ∈ (mainRun (fun _ => envGood) (some ["10.0.0.1"])).successful ∧
    (mainRun (fun _ => envGood) (some ["10.0.0.1"])).rewritten =
      some ["10.0.0.1"] ∧
    "10.0.0.1" ∈
      (mainRun (fun _ => envGood)
        (mainRun (fun _ => envGood) (some ["10.0.0.1"])).rewritten).connIPs := by
  decide

/-! ## Claim C3 -/

/-- Claim C3 (amended): classification is a deterministic,
case-insensitive function of the version/hardware fields, and the
precedence order nxos over wlc over mds over junos over the ios default
is respected; but the substring checks are applied field-by-field
(nexus, wlc, fibre channel, mds and juniper against the hardware field;
nx-os, aireos and junos against the version field), not against one
combined output text. -/
theorem c3_classifier (ver hw ver2 hw2 : String)
    (hveq : pyLower ver = pyLower ver2) (hheq : pyLower hw = pyLower hw2) :
    classify_output ver hw = classify_output ver2 hw2 ∧
    ((pyIn "nexus" (pyLower hw) || pyIn "nx-os" (pyLower ver)) = true →
      classify_output ver hw = "cisco_nxos") ∧
    ((pyIn "nexus" (pyLower hw) || pyIn "nx-os" (pyLower ver)) = false →
      (pyIn "wlc" (pyLower hw) || pyIn "aireos" (pyLower ver)) = true →
      classify_output ver hw = "cisco_wlc") ∧
    ((pyIn "nexus" (pyLower hw) || pyIn "nx-os" (pyLower ver)) = false →
      (pyIn "wlc" (pyLower hw) || pyIn "aireos" (pyLower ver)) = false →
      (pyIn "fibre channel" (pyLower hw) || pyIn "mds" (pyLower hw)) = true →
      classify_output ver hw = "cisco_mds") ∧
    ((pyIn "nexus" (pyLower hw) || pyIn "nx-os" (pyLower ver)) = false →
      (pyIn "wlc" (pyLower hw) || pyIn "aireos" (pyLower ver)) = false →
      (pyIn "fibre channel" (pyLower hw) || pyIn "mds" (pyLower hw)) = false →
      (pyIn "juniper" (pyLower hw) || pyIn "junos" (pyLower ver)) = true →
      classify_output ver hw = "juniper_junos") ∧
    ((pyIn "nexus" (pyLower hw) || pyIn "nx-os" (pyLower ver)) = false →
      (pyIn "wlc" (pyLower hw) || pyIn "aireos" (pyLower ver)) = false →
      (pyIn "fibre channel" (pyLower hw) || pyIn "mds" (pyLower hw)) = false →
      (pyIn "juniper" (pyLower hw) || pyIn "junos" (pyLower ver)) = false →
      classify_output ver hw = "cisco_ios") := by
  refine ⟨?_, ?_, ?_, ?_, ?_, ?_⟩
  · simp only [classify_output]
    rw [hveq, hheq]
  · intro h1; simp [classify_output, h1]
  · intro h1 h2; simp [classify_output, h1, h2]
  · intro h1 h2 h3; simp [classify_output, h1, h2, h3]
  · intro h1 h2 h3 h4; simp [classify_output, h1, h2, h3, h4]
  · intro h1 h2 h3 h4; simp [classify_output, h1, h2, h3, h4]

/-- Witness for C3's amended statement: mixed-case NX-OS output
classifies identically to its lowercase form, and the precedence
conjuncts apply at this concrete input. -/
theorem c3_witness :
    classify_output "NX-OS 9.3(5)" "Nexus9000 C9396PX" =
      classify_output "nx-os 9.3(5)" "nexus9000 c9396px" ∧
    ((pyIn "nexus" (pyLower "Nexus9000 C9396PX") ||
        pyIn "nx-os" (pyLower "NX-OS 9.3(5)")) = true →
      classify_output "NX-OS 9.3(5)" "Nexus9000 C9396PX" = "cisco_nxos") ∧
    ((pyIn "nexus" (pyLower "Nexus9000 C9396PX") ||
        pyIn "nx-os" (pyLower "NX-OS 9.3(5)")) = false →
      (pyIn "wlc" (pyLower "Nexus9000 C9396PX") ||
        pyIn "aireos" (pyLower "NX-OS 9.3(5)")) = true →
      classify_output "NX-OS 9.3(5)" "Nexus9000 C9396PX" = "cisco_wlc") ∧
    ((pyIn "nexus" (pyLower "Nexus9000 C9396PX") ||
        pyIn "nx-os" (pyLower "NX-OS 9.3(5)")) = false →
      (pyIn "wlc" (pyLower "Nexus9000 C9396PX") ||
        pyIn "aireos" (pyLower "NX-OS 9.3(5)")) = false →
      (pyIn "fibre channel" (pyLower "Nexus9000 C9396PX") ||
        pyIn "mds" (pyLower "Nexus9000 C9396PX")) = true →
      classify_output "NX-OS 9.3(5)" "Nexus9000 C9396PX" = "cisco_mds") ∧
    ((pyIn "nexus" (pyLower "Nexus9000 C9396PX") ||
        pyIn "nx-os" (pyLower "NX-OS 9.3(5)")) = false →
      (pyIn "wlc" (pyLower "Nexus9000 C9396PX") ||
        pyIn "aireos" (pyLower "NX-OS 9.3(5)")) = false →
      (pyIn "fibre channel" (pyLower "Nexus9000 C9396PX") ||
        pyIn "mds" (pyLower "Nexus9000 C9396PX")) = false →
      (pyIn "juniper" (pyLower "Nexus9000 C9396PX") ||
        pyIn "junos" (pyLower "NX-OS 9.3(5)")) = true →
      classify_output "NX-OS 9.3(5)" "Nexus9000 C9396PX" = "juniper_junos") ∧
    ((pyIn "nexus" (pyLower "Nexus9000 C9396PX") ||
        pyIn "nx-os" (pyLower "NX-OS 9.3(5)")) = false →
      (pyIn "wlc" (pyLower "Nexus9000 C9396PX") ||
        pyIn "aireos" (pyLower "NX-OS 9.3(5)")) = false →
      (pyIn "fibre channel" (pyLower "Nexus9000 C9396PX") ||
        pyIn "mds" (pyLower "Nexus9000 C9396PX")) = false →
      (pyIn "juniper" (pyLower "Nexus9000 C9396PX") ||
        pyIn "junos" (pyLower "NX-OS 9.3(5)")) = false →
      classify_output "NX-OS 9.3(5)" "Nexus9000 C9396PX" = "cisco_ios") :=
  c3_classifier "NX-OS 9.3(5)" "Nexus9000 C9396PX"
    "nx-os 9.3(5)" "nexus9000 c9396px" (by decide) (by decide)

/-- Counterexample for C3 as stated: with version "" and hardware
"nx-os" the code classifies as cisco_ios, while matching the same
signatures against the combined lowercased output text yields
cisco_nxos — the matches are not made against the combined output. -/
theorem c3_counterexample :
    classify_output "" "nx-os" = "cisco_ios" ∧
    classifyCombinedSpec "nx-os" = "cisco_nxos" ∧
    ("cisco_ios" : String) ≠ "cisco_nxos" := by
  decide

/-! ## Claim C4 -/

/-- Claim C4: a device whose prompt shows a shell sign (`>` or `#`)
and whose parsed discovery output matches none of the platform
signatures classifies as the generic fallback cisco_ios — not as
unknown, and with no failure-log append. -/
theorem c4_ios_fallback (e : DevEnv) (vv hh : String)
    (hd : e.detectOk = true)
    (hp : ('>' ∈ e.promptStr.data ∨ '#' ∈ e.promptStr.data))
    (ho : e.vOut = some (vv, hh))
    (h1 : pyIn "nexus" (pyLower hh) = false)
    (h2 : pyIn "nx-os" (pyLower vv) = false)
    (h3 : pyIn "wlc" (pyLower hh) = false)
    (h4 : pyIn "aireos" (pyLower vv) = false)
    (h5 : pyIn "fibre channel" (pyLower hh) = false)
    (h6 : pyIn "mds" (pyLower hh) = false)
    (h7 : pyIn "juniper" (pyLower hh) = false)
    (h8 : pyIn "junos" (pyLower vv) = false) :
    get_device_type e = (some "cisco_ios", false) := by
  simp [get_device_type, hd, hp, ho, classify_output, h1, h2, h3, h4, h5,
    h6, h7, h8]

/-- Witness for C4 at a concrete authenticated IOS-like device. -/
theorem c4_witness :
    get_device_type envGood = (some "cisco_ios", false) :=
  c4_ios_fallback envGood "15.2(4)M7" "C2960X universalk9" (by decide)
    (by decide) rfl (by decide) (by decide) (by decide) (by decide)
    (by decide) (by decide) (by decide) (by decide)

/-! ## Claim C8 -/

/-- Claim C8: an input entry that does not validate as an IP address is
recorded as one failure-log entry and skipped with no connection
attempt: its loop iteration connects to nothing, and in a whole batch
the invalid address is never connected to and lands in the failure log
whenever it occurs in the read list. -/
theorem c8_invalid (e : DevEnv) (envs : String → DevEnv)
    (fileLines : Option (List String)) (ip : String)
    (h : validate_ip ip = false) :
    processOne e ip = ⟨false, [], [ip]⟩ ∧
    ip ∉ (mainRun envs fileLines).connIPs ∧
    (ip ∈ read_ip_list fileLines →
      ip ∈ (mainRun envs fileLines).failEntries) := by
  refine ⟨processOne_invalid h, ?_, ?_⟩
  · intro hmem
    by_cases hne : read_ip_list fileLines = []
    · rw [show mainRun envs fileLines = ⟨[], [], [], none⟩ from by
        simp [mainRun, hne]] at hmem
      simp at hmem
    · rw [mainRun_eq envs fileLines hne] at hmem
      exact absurd (connOf_valid hmem) (by simp [h])
  · intro hip
    have hne : read_ip_list fileLines ≠ [] := by
      intro h0; rw [h0] at hip; simp at hip
    rw [mainRun_eq envs fileLines hne]
    refine List.mem_flatMap.mpr ⟨ip, hip, ?_⟩
    rw [processOne_invalid h]
    exact List.mem_cons_self ip []

/-- Witness for C8 at the spec's example address. -/
theorem c8_witness :
    processOne envGood "999.999.999.999" =
      ⟨false, [], ["999.999.999.999"]⟩ ∧
    "999.999.999.999" ∉
      (mainRun (fun _ => envGood) (some ["999.999.999.999"])).connIPs ∧
    ("999.999.999.999" ∈ read_ip_list (some ["999.999.999.999"]) →
      "999.999.999.999" ∈
        (mainRun (fun _ => envGood) (some ["999.999.999.999"])).failEntries) :=
  c8_invalid envGood (fun _ => envGood) (some ["999.999.999.999"])
    "999.999.999.999" (by decide)

/-! ## Claim C10 -/

/-- Claim C10 (amended): a batch whose input file yields no non-blank
line logs an error and returns before the loop — no connection attempt,
no failure entry, no list rewrite; a batch whose lines contain no valid
address also attempts no connection and succeeds on no device, but it
does perform the list-rewrite step, truncating the address list to
empty. -/
theorem c10_zero_valid (envs : String → DevEnv)
    (fileLines : Option (List String)) :
    (read_ip_list fileLines = [] →
      mainRun envs fileLines = ⟨[], [], [], none⟩) ∧
    ((∀ ip ∈ read_ip_list fileLines, validate_ip ip = false) →
      (mainRun envs fileLines).connIPs = [] ∧
      (mainRun envs fileLines).successful = [] ∧
      (read_ip_list fileLines ≠ [] →
        (mainRun envs fileLines).rewritten = some [])) := by
  constructor
  · intro h; simp [mainRun, h]
  · intro hall
    by_cases hne : read_ip_list fileLines = []
    · simp [mainRun, hne]
    · rw [mainRun_eq envs fileLines hne]
      have hsucc : succOf envs (read_ip_list fileLines) = [] := by
        rw [succOf, List.filter_eq_nil_iff]
        intro a ha
        rw [processOne_invalid (hall a ha)]
        simp
      have hconn : connOf envs (read_ip_list fileLines) = [] := by
        rw [connOf, List.flatMap_eq_nil_iff]
        intro a ha
        rw [processOne_invalid (hall a ha)]
      simp [hsucc, hconn]

/-- Witness for C10's amended statement at a concrete all-invalid run. -/
theorem c10_witness :
    (mainRun (fun _ => envGood) (some ["999.999.999.999"])).connIPs = [] ∧
    (mainRun (fun _ => envGood) (some ["999.999.999.999"])).successful = [] ∧
    (read_ip_list (some ["999.999.999.999"]) ≠ [] →
      (mainRun (fun _ => envGood) (some ["999.999.999.999"])).rewritten =
        some []) :=
  (c10_zero_valid (fun _ => envGood) (some ["999.999.999.999"])).2 (by decide)

/-- Counterexample for C10 as stated: the input ["999.999.999.999"]
yields zero valid addresses and indeed no connection is attempted, but
the list-rewrite step is performed (the file is rewritten to empty)
instead of being skipped. -/
theorem c10_counterexample :
    read_ip_list (some ["999.999.999.999"]) ≠ [] ∧
    (mainRun (fun _ => envGood) (some ["999.999.999.999"])).connIPs = [] ∧
    (mainRun (fun _ => envGood) (some ["999.999.999.999"])).rewritten =
      some [] ∧
    (mainRun (fun _ => envGood) (some ["999.999.999.999"])).rewritten ≠
      none := by
  decide

/-! ## Claim C5 -/

/-- Claim C5: client-IP extraction scans the output lines for the first
one containing the literal marker "IP Address"; when one is found the
result is the first dotted-quad on that line (later lines are ignored;
a marker line without a quad yields the sentinel), the first match
being leftmost in the line; when no line has the marker the result is
the sentinel "Unknown"; the spec's example evaluates to "10.0.0.5". -/
theorem c5_client_ip :
    (∀ lines, (∀ l ∈ lines, pyIn "IP Address" l = false) →
      clientIPFromLines lines = "Unknown") ∧
    (∀ pre line post, (∀ l ∈ pre, pyIn "IP Address" l = false) →
      pyIn "IP Address" line = true →
      clientIPFromLines (pre ++ line :: post) =
        (findFirstQuad line).getD "Unknown") ∧
    (∀ line m, findFirstQuad line = some m →
      ∃ i, quadAt (line.data.drop i) = some m ∧
        ∀ j < i, quadAt (line.data.drop j) = none) ∧
    get_client_details
        "Foo: bar\nIP Address: 10.0.0.5 Status: ok\nIP Address: 10.0.0.9" =
      "10.0.0.5" := by
  refine ⟨?_, ?_, ?_, by decide⟩
  · intro lines
    induction lines with
    | nil => intro _; rfl
    | cons x t ih =>
      intro h
      rw [show clientIPFromLines (x :: t) =
        (if pyIn "IP Address" x then
          match findFirstQuad x with
          | some ip => ip
          | none => "Unknown"
         else clientIPFromLines t) from rfl]
      rw [if_neg (by simp [h x (List.mem_cons_self x t)])]
      exact ih fun l hl => h l (List.mem_cons_of_mem x hl)
  · intro pre line post
    induction pre with
    | nil =>
      intro _ hline
      rw [List.nil_append]
      rw [show clientIPFromLines (line :: post) =
        (if pyIn "IP Address" line then
          match findFirstQuad line with
          | some ip => ip
          | none => "Unknown"
         else clientIPFromLines post) from rfl]
      rw [if_pos (by simp [hline])]
      cases hq : findFirstQuad line <;> simp [hq]
    | cons x t ih =>
      intro h hline
      rw [List.cons_append]
      rw [show clientIPFromLines (x :: (t ++ line :: post)) =
        (if pyIn "IP Address" x then
          match findFirstQuad x with
          | some ip => ip
          | none => "Unknown"
         else clientIPFromLines (t ++ line :: post)) from rfl]
      rw [if_neg (by simp [h x (List.mem_cons_self x t)])]
      exact ih (fun l hl => h l (List.mem_cons_of_mem x hl)) hline
  · intro line m h
    obtain ⟨j, _, hj, hmin⟩ := firstSomeAux_eq_some
      (fun i => quadAt (line.data.drop i)) (line.data.length + 1) 0 m h
    exact ⟨j, hj, fun k hk => hmin k (Nat.zero_le k) hk⟩

/-- Witness for C5: the first marker line of the spec's example,
through the theorem's decomposition conjunct. -/
theorem c5_witness :
    clientIPFromLines
        (["Foo: bar"] ++ "IP Address: 10.0.0.5 Status: ok" ::
          ["IP Address: 10.0.0.9"]) =
      (findFirstQuad "IP Address: 10.0.0.5 Status: ok").getD "Unknown" :=
  c5_client_ip.2.1 ["Foo: bar"] "IP Address: 10.0.0.5 Status: ok"
    ["IP Address: 10.0.0.9"] (by decide) (by decide)

/-! ## Claim C6 -/

/-- Claim C6: for a nonempty whitespace-free name pattern,
`get_ap_names` selects exactly the output lines whose leading
whitespace token starts with the pattern, and returns that first token
of each selected line, in line order; the spec's example yields
["BB4E_FL4_AP1"]. -/
theorem c6_ap_names (out pat : String) (h0 : pat ≠ "")
    (h1 : ∀ c ∈ pat.data, isPySpace c = false) :
    get_ap_names out pat =
      ((pySplitlines out).filterMap fun l =>
        match pySplitWS l with
        | [] => none
        | t :: _ => if pat.data.isPrefixOf t.data then some t else none) ∧
    get_ap_names "BB4E_FL4_AP1 ...\nOther AP ..." "BB4E_FL4" =
      ["BB4E_FL4_AP1"] := by
  refine ⟨?_, by decide⟩
  apply List.filterMap_congr
  intro l _
  have hpd : pat.data ≠ [] := by
    intro hdata
    apply h0
    cases pat
    simp_all
  exact get_ap_line pat.data hpd h1 l

/-- Witness for C6 at the spec's example input and pattern. -/
theorem c6_witness :
    get_ap_names "BB4E_FL4_AP1 ...\nOther AP ..." "BB4E_FL4" =
      ((pySplitlines "BB4E_FL4_AP1 ...\nOther AP ...").filterMap fun l =>
        match pySplitWS l with
        | [] => none
        | t :: _ =>
          if ("BB4E_FL4").data.isPrefixOf t.data then some t else none) ∧
    get_ap_names "BB4E_FL4_AP1 ...\nOther AP ..." "BB4E_FL4" =
      ["BB4E_FL4_AP1"] :=
  c6_ap_names "BB4E_FL4_AP1 ...\nOther AP ..." "BB4E_FL4" (by decide)
    (by decide)

/-! ## Claim C7 -/

/-- Claim C7: `get_clients_for_ap` yields exactly one (MAC, AP) pair
per output line containing a MAC pattern — the leftmost match of the
line — in line order and without deduplication; a line with two MACs
contributes only its first, and duplicate MACs on distinct lines are
both kept. -/
theorem c7_macs (out ap : String) :
    get_clients_for_ap out ap =
      ((pySplitlines out).filter fun l => (findFirstMac l).isSome).map
        (fun l => ((findFirstMac l).getD "", ap)) ∧
    (∀ line m, findFirstMac line = some m →
      ∃ i, macAt (line.data.drop i) = some m ∧
        ∀ j < i, macAt (line.data.drop j) = none) ∧
    get_clients_for_ap
        "aa:bb:cc:dd:ee:ff x 11:22:33:44:55:66\nnope\naa:bb:cc:dd:ee:ff y"
        "AP1" =
      [("aa:bb:cc:dd:ee:ff", "AP1"), ("aa:bb:cc:dd:ee:ff", "AP1")] := by
  refine ⟨filterMap_first_eq (pySplitlines out) ap, ?_, by decide⟩
  intro line m h
  obtain ⟨j, _, hj, hmin⟩ := firstSomeAux_eq_some
    (fun i => macAt (line.data.drop i)) (line.data.length + 1) 0 m h
  exact ⟨j, hj, fun k hk => hmin k (Nat.zero_le k) hk⟩

/-- Witness for C7: the leftmost-match characterisation applied to a
concrete line holding one MAC. -/
theorem c7_witness :
    ∃ i, macAt (("MAC aa:bb:cc:dd:ee:ff up").data.drop i) =
        some "aa:bb:cc:dd:ee:ff" ∧
      ∀ j < i, macAt (("MAC aa:bb:cc:dd:ee:ff up").data.drop j) = none :=
  (c7_macs "" "AP1").2.1 "MAC aa:bb:cc:dd:ee:ff up" "aa:bb:cc:dd:ee:ff"
    (by decide)

/-! ## Claim C9 -/

/-- Claim C9: in every inventory run the trace of commands sent is
either empty (the connection failed) or begins with the
pagination-disable command, every later command being a data-retrieval
show command — so "config paging disable" precedes every
data-retrieval command of the session. -/
theorem c9_pagination (env : WlcEnv) (pat : String) :
    wlcMainTrace env pat = [] ∨
    ∃ rest, wlcMainTrace env pat = "config paging disable" :: rest ∧
      ∀ c ∈ rest, ("show ").data.isPrefixOf c.data = true := by
  by_cases hc : env.connectOk
  · right
    have htr : wlcMainTrace env pat = "config paging disable" ::
        ("show ap summary" ::
          (get_ap_names (env.reply "show ap summary") pat).flatMap fun ap =>
            ("show client ap 802.11a " ++ ap) ::
              (get_clients_for_ap
                (env.reply ("show client ap 802.11a " ++ ap)) ap).map
                fun mp => "show client detail " ++ mp.1) := by
      simp [wlcMainTrace, hc]
    refine ⟨_, htr, ?_⟩
    intro c hcm
    rcases List.mem_cons.mp hcm with rfl | hmem
    · decide
    · rw [List.mem_flatMap] at hmem
      obtain ⟨ap, _, hcap⟩ := hmem
      rcases List.mem_cons.mp hcap with rfl | hdet
      · rw [show ("show client ap 802.11a " ++ ap).data =
          ("show client ap 802.11a ").data ++ ap.data from rfl]
        exact isPrefixOf_append_left _ _ _ (by decide)
      · rw [List.mem_map] at hdet
        obtain ⟨mp, _, rfl⟩ := hdet
        rw [show ("show client detail " ++ mp.1).data =
          ("show client detail ").data ++ mp.1.data from rfl]
        exact isPrefixOf_append_left _ _ _ (by decide)
  · left
    simp [wlcMainTrace, hc]

/-- Witness for C9 at a concrete connected session. -/
theorem c9_witness :
    wlcMainTrace ⟨true, fun _ => "AP1 up"⟩ "AP" = [] ∨
    ∃ rest, wlcMainTrace ⟨true, fun _ => "AP1 up"⟩ "AP" =
        "config paging disable" :: rest ∧
      ∀ c ∈ rest, ("show ").data.isPrefixOf c.data = true :=
  c9_pagination ⟨true, fun _ => "AP1 up"⟩ "AP"

end ClientMacSearch
